import Mathlib

/-!
# Verification of the in-memory product CRUD service (`server.js`)

A shallow embedding of the Express request handlers of `src/server.js`:
each handler becomes a pure Lean function from its inputs (headers, path
parameters, query parameters, JSON body) and the current product store to
a response together with the new store.  JSON numbers are modelled as `Int`,
JSON values reaching untyped body fields as `JVal`, absent fields as `none`.
-/

namespace ProductApi

/-- A JSON value as it can appear in a request-body field.
Numbers are modelled as `Int`. -/
inductive JVal where
  | str (s : String)
  | num (n : Int)
  | bool (b : Bool)
  | null
deriving DecidableEq, Repr

/-- A stored product record (`products` array elements in `server.js`). -/
structure Product where
  id : String
  name : String
  description : String
  price : Int
  category : String
  inStock : Bool
deriving DecidableEq, Repr

/-- Placeholder record used as the (unreachable) default of safe indexing. -/
def dummyProduct : Product := ⟨"", "", "", 0, "", true⟩

/-- The JSON body of a create/update request: `name`, `price` and `category`
arrive untyped (validation checks their types), `description` and `inStock`
are the optional fields the handlers default. -/
structure Body where
  name : Option JVal
  price : Option JVal
  category : Option JVal
  description : Option String
  inStock : Option Bool
deriving DecidableEq, Repr

/-- JS truthiness of an (optional) JSON value: `undefined`, `null`, `""`,
`0` and `false` are falsy. -/
def jsFalsy : Option JVal → Bool
  | none => true
  | some (.str s) => s == ""
  | some (.num n) => n == 0
  | some (.bool b) => !b
  | some .null => true

/-- `typeof v === 'string'`. -/
def jsIsString : Option JVal → Bool
  | some (.str _) => true
  | _ => false

/-- `typeof v === 'number'`. -/
def jsIsNumber : Option JVal → Bool
  | some (.num _) => true
  | _ => false

/-- The string carried by a JSON value (defaulting freely: callers only use
it after validation has established the value is a string). -/
def strVal : Option JVal → String
  | some (.str s) => s
  | _ => ""

/-- The number carried by a JSON value (same remark as `strVal`). -/
def numVal : Option JVal → Int
  | some (.num n) => n
  | _ => 0

/-- JS `String.prototype.toLowerCase`: lower-case every character. -/
def jsToLower (s : String) : String := ⟨s.data.map Char.toLower⟩

/-- JS `String.prototype.trim`: drop leading and trailing whitespace. -/
def jsTrim (s : String) : String :=
  ⟨((s.data.dropWhile (fun c => c.isWhitespace)).reverse.dropWhile
      (fun c => c.isWhitespace)).reverse⟩

/-- The hardcoded shared secret of `authMiddleware`. -/
def secretToken : String := "secret-token"

/-- JS `String.prototype.split(sep)` for a one-character separator, on the
character list: splits into the (possibly empty) runs between separators.
`"".split(sep)` is `[""]`, as in JS. -/
def jsSplit (sep : Char) : List Char → List (List Char)
  | [] => [[]]
  | c :: rest =>
    match jsSplit sep rest with
    | [] => [[c]]
    | h :: t => if c = sep then [] :: h :: t else (c :: h) :: t

/-- JS `s.split(' ')` as a list of strings. -/
def jsSplitSpace (s : String) : List String := (jsSplit ' ' s.data).map (fun cs => ⟨cs⟩)

/-- `authMiddleware` (server.js:25-34): takes the `Authorization` header,
splits it on spaces, and passes exactly when the second field equals
`secret-token`.  Returns `true` when `next()` is called. -/
def authPasses (hdr : Option String) : Bool :=
  match hdr with
  | none => false
  | some s => (jsSplitSpace s).get? 1 == some secretToken

/-- `validateProduct` (server.js:37-53): returns the 400 error message of the
first failing check (name, then price, then category), or `none` when the
payload passes and `next()` is called. -/
def validateProduct (b : Body) : Option String :=
  if jsFalsy b.name || !jsIsString b.name || (jsTrim (strVal b.name) == "") then
    some "Name is required and must be a non-empty string"
  else if b.price.isNone || !jsIsNumber b.price || decide (numVal b.price < 0) then
    some "Price is required and must be a non-negative number"
  else if jsFalsy b.category || !jsIsString b.category || (jsTrim (strVal b.category) == "") then
    some "Category is required and must be a non-empty string"
  else
    none

/-- JS `Array.prototype.findIndex`, with `-1` modelled as `none`. -/
def jsFindIndex (p : α → Bool) : List α → Option Nat
  | [] => none
  | a :: as => if p a then some 0 else (jsFindIndex p as).map (· + 1)

/-- `POST /api/products` (server.js:178-202): auth, validation, duplicate
case-insensitive name check (409), then append the new record (201) built
with `description || ''` and `inStock !== undefined ? inStock : true`.
`newId` stands for the value returned by `uuidv4()`.
Result: (status, created record if any, store afterwards). -/
def postRoute (hdr : Option String) (b : Body) (newId : String) (ps : List Product) :
    Nat × Option Product × List Product :=
  if !authPasses hdr then (401, none, ps)
  else match validateProduct b with
  | some _ => (400, none, ps)
  | none =>
    let name := strVal b.name
    if ps.any (fun p => jsToLower p.name == jsToLower name) then (409, none, ps)
    else
      let np : Product :=
        ⟨newId, name, b.description.getD "", numVal b.price, strVal b.category,
         b.inStock.getD true⟩
      (201, some np, ps ++ [np])

/-- `PUT /api/products/:id` (server.js:205-238): auth, validation, 404 when
the id is absent, 409 when a *different* id already holds the same
case-insensitive name, otherwise replace the record at the found index,
carrying the id over, defaulting `description` to `''` and `inStock` to the
prior record's value. -/
def putRoute (hdr : Option String) (pathId : String) (b : Body) (ps : List Product) :
    Nat × Option Product × List Product :=
  if !authPasses hdr then (401, none, ps)
  else match validateProduct b with
  | some _ => (400, none, ps)
  | none =>
    match jsFindIndex (fun p => p.id == pathId) ps with
    | none => (404, none, ps)
    | some i =>
      let name := strVal b.name
      if ps.any (fun p => jsToLower p.name == jsToLower name && p.id != pathId) then
        (409, none, ps)
      else
        let old := ps.getD i dummyProduct
        let up : Product :=
          ⟨pathId, name, b.description.getD "", numVal b.price, strVal b.category,
           b.inStock.getD old.inStock⟩
        (200, some up, ps.set i up)

/-- `DELETE /api/products/:id` (server.js:241-255): auth, 404 when the id is
absent, otherwise `splice` out the record and answer 200 with the
confirmation message and the removed record. -/
def deleteRoute (hdr : Option String) (pathId : String) (ps : List Product) :
    Nat × Option (String × Product) × List Product :=
  if !authPasses hdr then (401, none, ps)
  else match jsFindIndex (fun p => p.id == pathId) ps with
  | none => (404, none, ps)
  | some i =>
    (200, some ("Product deleted successfully", ps.getD i dummyProduct), ps.eraseIdx i)

/-- `GET /api/products/:id` (server.js:162-175): `find` by id, 404 when
absent. -/
def getById (pathId : String) (ps : List Product) : Nat × Option Product :=
  match ps.find? (fun p => p.id == pathId) with
  | none => (404, none)
  | some p => (200, some p)

/-- JS `String.prototype.includes`: substring containment. -/
def jsIncludes (hay needle : String) : Bool :=
  hay.data.tails.any (fun t => needle.data.isPrefixOf t)

/-- Value of a character as a digit in the given radix, when it is one. -/
def digitVal? (radix : Nat) (c : Char) : Option Nat :=
  let v :=
    if '0' ≤ c ∧ c ≤ '9' then some (c.toNat - '0'.toNat)
    else if 'a' ≤ c ∧ c ≤ 'z' then some (c.toNat - 'a'.toNat + 10)
    else if 'A' ≤ c ∧ c ≤ 'Z' then some (c.toNat - 'A'.toNat + 10)
    else none
  match v with
  | some d => if d < radix then some d else none
  | none => none

/-- JS `parseInt(s)` with no radix argument: skip leading whitespace, read an
optional sign, recognise a `0x`/`0X` hex prefix, then take the longest run
of digits; `NaN` (no digits) is modelled as `none`. -/
def parseIntJS (s : String) : Option Int :=
  let cs := s.data.dropWhile (fun c => c.isWhitespace)
  let (sgn, cs₁) : Int × List Char :=
    match cs with
    | '-' :: rest => (-1, rest)
    | '+' :: rest => (1, rest)
    | _ => (1, cs)
  let (radix, cs₂) : Nat × List Char :=
    match cs₁ with
    | '0' :: 'x' :: rest => (16, rest)
    | '0' :: 'X' :: rest => (16, rest)
    | _ => (10, cs₁)
  let ds := cs₂.takeWhile (fun c => (digitVal? radix c).isSome)
  if ds.isEmpty then none
  else some (sgn * (ds.foldl (fun acc c => acc * radix + ((digitVal? radix c).getD 0)) 0 : Nat))

/-- `parseInt(q) || d`: parse failure (`NaN`) and the falsy number `0` both
fall back to the default. -/
def jsOrDefault (v : Option Int) (d : Int) : Int :=
  match v with
  | none => d
  | some n => if n = 0 then d else n

/-- The effective page number: `parseInt(req.query.page) || 1`. -/
def pageOf (q : Option String) : Int := jsOrDefault (q.bind parseIntJS) 1

/-- The effective page size: `parseInt(req.query.limit) || 10`. -/
def limitOf (q : Option String) : Int := jsOrDefault (q.bind parseIntJS) 10

/-- JS `Array.prototype.slice(a, b)`: negative indices count from the end,
then both are clamped to `[0, length]` and the elements in `[start, end)`
are returned. -/
def jsSlice (l : List α) (a b : Int) : List α :=
  let len : Int := l.length
  let s := if a < 0 then max (len + a) 0 else min a len
  let e := if b < 0 then max (len + b) 0 else min b len
  (l.drop s.toNat).take (e - s).toNat

/-- The working set of `GET /api/products` after the three filters
(server.js:102-126): search over name/description, then category, then
stock, each applied only when the query parameter is present (and, for the
first two, non-empty — JS truthiness). -/
def filterAll (search category inStock : Option String) (ps : List Product) :
    List Product :=
  let f1 := match search with
    | some s =>
      if s == "" then ps
      else ps.filter (fun p =>
        jsIncludes (jsToLower p.name) (jsToLower s) || jsIncludes (jsToLower p.description) (jsToLower s))
    | none => ps
  let f2 := match category with
    | some c =>
      if c == "" then f1
      else f1.filter (fun p => jsToLower p.category == jsToLower c)
    | none => f1
  let f3 := match inStock with
    | some v => f2.filter (fun p => p.inStock == (v == "true"))
    | none => f2
  f3

/-- The JSON object answered by `GET /api/products`. -/
structure ListResp where
  next : Option (Int × Int)
  previous : Option (Int × Int)
  products : List Product
  total : Nat
  page : Int
  limit : Int
deriving DecidableEq, Repr

/-- `GET /api/products` (server.js:100-159): filter, parse-or-default the
pagination parameters, slice, and attach `next`/`previous` links. -/
def listRoute (search category inStock page limit : Option String) (ps : List Product) :
    ListResp :=
  let f := filterAll search category inStock ps
  let pg := pageOf page
  let lim := limitOf limit
  let startIndex := (pg - 1) * lim
  let endIndex := pg * lim
  { next := if endIndex < (f.length : Int) then some (pg + 1, lim) else none
    previous := if startIndex > 0 then some (pg - 1, lim) else none
    products := jsSlice f startIndex endIndex
    total := f.length
    page := pg
    limit := lim }

/-- The three seed records (server.js:65-90). -/
def seedProducts : List Product :=
  [⟨"1", "Laptop", "High-performance laptop with 16GB RAM", 1200, "electronics", true⟩,
   ⟨"2", "Smartphone", "Latest model with 128GB storage", 800, "electronics", true⟩,
   ⟨"3", "Coffee Maker", "Programmable coffee maker with timer", 50, "kitchen", false⟩]

/-- Modelled from the spec: `uuidv4()` (from the external `uuid` package, not
part of src/) "generate[s] a fresh unique id".  We model the generator as an
injective function of a call counter whose tokens are distinct from every
seed id. -/
def freshId (n : Nat) : String := ⟨'u' :: List.replicate n 'u'⟩

/-- A mutating API call: the payload of one create, update or delete request
(each carrying its `Authorization` header, so failed requests are included). -/
inductive Op where
  | create (hdr : Option String) (b : Body)
  | update (hdr : Option String) (pathId : String) (b : Body)
  | del (hdr : Option String) (pathId : String)

/-- Server state: the `uuidv4` call counter and the `products` array. -/
def ApiState := Nat × List Product

/-- Run one mutating request against the state, keeping only the store
(responses are dropped; the routes themselves compute them). -/
def applyOp (st : ApiState) (op : Op) : ApiState :=
  match op with
  | .create h b => (st.1 + 1, (postRoute h b (freshId st.1) st.2).2.2)
  | .update h pid b => (st.1, (putRoute h pid b st.2).2.2)
  | .del h pid => (st.1, (deleteRoute h pid st.2).2.2)

/-- The startup state: seed products, no uuid generated yet. -/
def seedState : ApiState := (0, seedProducts)

/-- Run a sequence of mutating requests from the startup state. -/
def applyOps (ops : List Op) : ApiState := ops.foldl applyOp seedState

/-- The lower-cased names of the store, in order. -/
def lowerNames (ps : List Product) : List String := ps.map (fun p => jsToLower p.name)

/-- The ids of the store, in order. -/
def idsOf (ps : List Product) : List String := ps.map (fun p => p.id)

/-- An id the store can legitimately hold once the counter is at `c`:
a seed id or an already-generated fresh id. -/
def ValidId (c : Nat) (id : String) : Prop :=
  id = "1" ∨ id = "2" ∨ id = "3" ∨ ∃ k, k < c ∧ id = freshId k

/-- The store invariant: case-insensitive names are pairwise distinct, ids
are pairwise distinct, and every id is accounted for by the generator. -/
def Inv (st : ApiState) : Prop :=
  (lowerNames st.2).Nodup ∧ (idsOf st.2).Nodup ∧ ∀ p ∈ st.2, ValidId st.1 p.id

/-- Modelled from the spec's words: "slice the filtered set to
`[startIndex, endIndex)`" — the elements whose (non-negative) index lies in
the half-open integer interval `[a, b)`. -/
def specSlice (l : List α) (a b : Int) : List α :=
  (l.drop a.toNat).take (b.toNat - a.toNat)

/-- Modelled from the spec's words: "`name` present, string type, non-empty
after trimming; `price` present, numeric type, ≥ 0; `category` present,
string type, non-empty after trimming", checked in that order with the first
violation answering the field's 400 message. -/
def specValidate (b : Body) : Option String :=
  match b.name with
  | some (.str s) =>
    if jsTrim s = "" then some "Name is required and must be a non-empty string"
    else match b.price with
      | some (.num n) =>
        if n < 0 then some "Price is required and must be a non-negative number"
        else match b.category with
          | some (.str c) =>
            if jsTrim c = "" then some "Category is required and must be a non-empty string"
            else none
          | _ => some "Category is required and must be a non-empty string"
      | _ => some "Price is required and must be a non-negative number"
  | _ => some "Name is required and must be a non-empty string"

/-! ## Helper lemmas -/

theorem jsFindIndex_some {p : α → Bool} :
    ∀ {l : List α} {i : Nat}, jsFindIndex p l = some i →
      ∃ h : i < l.length, p (l.get ⟨i, h⟩) = true := by
  intro l
  induction l with
  | nil => intro i h; simp [jsFindIndex] at h
  | cons a as ih =>
    intro i h
    by_cases hp : p a
    · simp [jsFindIndex, hp] at h
      subst h
      exact ⟨Nat.succ_pos _, hp⟩
    · simp [jsFindIndex, hp] at h
      obtain ⟨j, hj, rfl⟩ := h
      obtain ⟨hlt, hpj⟩ := ih hj
      exact ⟨Nat.succ_lt_succ hlt, hpj⟩

theorem jsFindIndex_none {p : α → Bool} :
    ∀ {l : List α}, jsFindIndex p l = none → ∀ x ∈ l, p x = false := by
  intro l
  induction l with
  | nil => intro _ x hx; cases hx
  | cons a as ih =>
    intro h x hx
    by_cases hp : p a
    · simp [jsFindIndex, hp] at h
    · simp [jsFindIndex, hp] at h
      rcases List.mem_cons.mp hx with rfl | hx
      · exact Bool.eq_false_iff.mpr hp
      · exact ih h x hx

theorem set_of_getElem?_eq : ∀ {l : List α} {i : Nat} {a : α},
    l[i]? = some a → l.set i a = l := by
  intro l
  induction l with
  | nil => intro i a h; simp at h
  | cons x xs ih =>
    intro i a h
    cases i with
    | zero => simp at h; simp [h]
    | succ j => simp at h; simp [List.set, ih h]

theorem map_eraseIdx_comm (f : α → β) :
    ∀ (l : List α) (i : Nat), (l.eraseIdx i).map f = (l.map f).eraseIdx i := by
  intro l
  induction l with
  | nil => intro i; simp
  | cons x xs ih =>
    intro i
    cases i with
    | zero => simp [List.eraseIdx]
    | succ j => simp [List.eraseIdx, ih j]

theorem not_mem_eraseIdx_of_nodup :
    ∀ {l : List α} {i : Nat} {a : α}, l.Nodup → l[i]? = some a → a ∉ l.eraseIdx i := by
  intro l
  induction l with
  | nil => intro i a _ h; simp at h
  | cons x xs ih =>
    intro i a hnd h
    cases i with
    | zero =>
      simp at h
      subst h
      simpa [List.eraseIdx] using (List.nodup_cons.mp hnd).1
    | succ j =>
      simp at h
      intro hmem
      simp [List.eraseIdx] at hmem
      rcases hmem with rfl | hmem
      · exact (List.nodup_cons.mp hnd).1 (List.getElem?_mem h)
      · exact ih (List.nodup_cons.mp hnd).2 h hmem

theorem nodup_set_of_ne :
    ∀ {l : List α} {i : Nat} {a : α}, l.Nodup →
      (∀ j (hj : j < l.length), j ≠ i → l.get ⟨j, hj⟩ ≠ a) → (l.set i a).Nodup := by
  intro l
  induction l with
  | nil => intro i a _ _; simp
  | cons x xs ih =>
    intro i a hnd hne
    obtain ⟨hx, hxs⟩ := List.nodup_cons.mp hnd
    cases i with
    | zero =>
      rw [List.set_cons_zero]
      refine List.nodup_cons.mpr ⟨?_, hxs⟩
      intro hmem
      obtain ⟨⟨j, hj⟩, hget⟩ := List.mem_iff_get.mp hmem
      exact hne (j + 1) (Nat.succ_lt_succ hj) (Nat.succ_ne_zero j) hget
    | succ k =>
      rw [List.set_cons_succ]
      refine List.nodup_cons.mpr ⟨?_, ?_⟩
      · intro hmem
        rcases List.mem_or_eq_of_mem_set hmem with hmem | rfl
        · exact hx hmem
        · exact hne 0 (Nat.succ_pos _) (Nat.succ_ne_zero k).symm rfl
      · refine ih hxs ?_
        intro j hj hji
        exact hne (j + 1) (Nat.succ_lt_succ hj) (fun hc => hji (Nat.succ_injective hc))

theorem jsSlice_eq_specSlice (l : List α) (a b : Int) (ha : 0 ≤ a) (hb : 0 ≤ b) :
    jsSlice l a b = specSlice l a b := by
  unfold jsSlice specSlice
  simp only [if_neg (not_lt.mpr ha), if_neg (not_lt.mpr hb)]
  rcases le_or_lt (l.length : Int) a with hle | hlt
  · rw [List.drop_eq_nil_of_le (by omega : l.length ≤ (min a (l.length : Int)).toNat),
      List.drop_eq_nil_of_le (by omega : l.length ≤ a.toNat)]
    simp
  · rw [min_eq_left hlt.le, List.take_eq_take]
    simp only [List.length_drop]
    omega

theorem freshId_length (n : Nat) : (freshId n).length = n + 1 := by
  simp [freshId, String.length]

theorem freshId_inj {a b : Nat} (h : freshId a = freshId b) : a = b := by
  have := congrArg String.length h
  rw [freshId_length, freshId_length] at this
  omega

theorem freshId_ne_seed (n : Nat) :
    freshId n ≠ "1" ∧ freshId n ≠ "2" ∧ freshId n ≠ "3" := by
  refine ⟨?_, ?_, ?_⟩ <;>
  · intro h
    have hl := congrArg String.length h
    rw [freshId_length] at hl
    have e1 : ("1" : String).length = 1 := rfl
    have e2 : ("2" : String).length = 1 := rfl
    have e3 : ("3" : String).length = 1 := rfl
    have hn : n = 0 := by omega
    subst hn
    revert h
    decide

theorem validId_mono {c : Nat} {id : String} (h : ValidId c id) : ValidId (c + 1) id := by
  rcases h with h | h | h | ⟨k, hk, rfl⟩
  · exact Or.inl h
  · exact Or.inr (Or.inl h)
  · exact Or.inr (Or.inr (Or.inl h))
  · exact Or.inr (Or.inr (Or.inr ⟨k, Nat.lt_succ_of_lt hk, rfl⟩))

theorem validId_ne_fresh {c : Nat} {id : String} (h : ValidId c id) : id ≠ freshId c := by
  rcases h with rfl | rfl | rfl | ⟨k, hk, rfl⟩
  · exact fun hc => (freshId_ne_seed c).1 hc.symm
  · exact fun hc => (freshId_ne_seed c).2.1 hc.symm
  · exact fun hc => (freshId_ne_seed c).2.2 hc.symm
  · exact fun hc => absurd (freshId_inj hc) (Nat.ne_of_lt hk)

theorem inv_applyOp {st : ApiState} (hInv : Inv st) (op : Op) : Inv (applyOp st op) := by
  obtain ⟨c, ps⟩ := st
  obtain ⟨hNames, hIds, hVal⟩ := hInv
  have unchanged_succ : Inv (c + 1, ps) :=
    ⟨hNames, hIds, fun p hp => validId_mono (hVal p hp)⟩
  have unchanged : Inv (c, ps) := ⟨hNames, hIds, hVal⟩
  cases op with
  | create h b =>
    show Inv (c + 1, (postRoute h b (freshId c) ps).2.2)
    by_cases hA : authPasses h = true
    · cases hV : validateProduct b with
      | some m =>
        have hst : (postRoute h b (freshId c) ps).2.2 = ps := by
          simp [postRoute, hA, hV]
        rw [hst]; exact unchanged_succ
      | none =>
        by_cases hDup : ps.any (fun p => jsToLower p.name == jsToLower (strVal b.name)) = true
        · have hst : (postRoute h b (freshId c) ps).2.2 = ps := by
            simp [postRoute, hA, hV, hDup]
          rw [hst]; exact unchanged_succ
        · have hDup' : ps.any (fun p => jsToLower p.name == jsToLower (strVal b.name)) = false := by
            simpa using hDup
          have hNotName : ∀ p ∈ ps, jsToLower p.name ≠ jsToLower (strVal b.name) := by
            intro p hp
            have := List.any_eq_false.mp hDup' p hp
            simpa using this
          have hNotId : ∀ p ∈ ps, p.id ≠ freshId c := fun p hp => validId_ne_fresh (hVal p hp)
          have hst : (postRoute h b (freshId c) ps).2.2 =
              ps ++ [⟨freshId c, strVal b.name, b.description.getD "", numVal b.price,
                      strVal b.category, b.inStock.getD true⟩] := by
            simp [postRoute, hA, hV, hDup']
          rw [hst]
          refine ⟨?_, ?_, ?_⟩
          · rw [lowerNames, List.map_append, List.nodup_append]
            refine ⟨hNames, by simp, ?_⟩
            simp only [List.map_cons, List.map_nil, List.disjoint_singleton]
            intro hmem
            obtain ⟨p, hp, heq⟩ := List.mem_map.mp hmem
            exact hNotName p hp heq
          · rw [idsOf, List.map_append, List.nodup_append]
            refine ⟨hIds, by simp, ?_⟩
            simp only [List.map_cons, List.map_nil, List.disjoint_singleton]
            intro hmem
            obtain ⟨p, hp, heq⟩ := List.mem_map.mp hmem
            exact hNotId p hp heq
          · intro p hp
            rcases List.mem_append.mp hp with hp | hp
            · exact validId_mono (hVal p hp)
            · have hp' : p = ⟨freshId c, strVal b.name, b.description.getD "",
                  numVal b.price, strVal b.category, b.inStock.getD true⟩ := by
                simpa using hp
              subst hp'
              exact Or.inr (Or.inr (Or.inr ⟨c, Nat.lt_succ_self c, rfl⟩))
    · have hA' : authPasses h = false := by simpa using hA
      have hst : (postRoute h b (freshId c) ps).2.2 = ps := by
        simp [postRoute, hA']
      rw [hst]; exact unchanged_succ
  | update h pid b =>
    show Inv (c, (putRoute h pid b ps).2.2)
    by_cases hA : authPasses h = true
    · cases hV : validateProduct b with
      | some m =>
        have hst : (putRoute h pid b ps).2.2 = ps := by simp [putRoute, hA, hV]
        rw [hst]; exact unchanged
      | none =>
        cases hFind : jsFindIndex (fun p => p.id == pid) ps with
        | none =>
          have hst : (putRoute h pid b ps).2.2 = ps := by simp [putRoute, hA, hV, hFind]
          rw [hst]; exact unchanged
        | some i =>
          by_cases hDup : ps.any
              (fun p => jsToLower p.name == jsToLower (strVal b.name) && p.id != pid) = true
          · have hst : (putRoute h pid b ps).2.2 = ps := by
              simp [putRoute, hA, hV, hFind, hDup]
            rw [hst]; exact unchanged
          · have hDup' : ps.any
                (fun p => jsToLower p.name == jsToLower (strVal b.name) && p.id != pid) = false := by
              simpa using hDup
            obtain ⟨hi, hpi⟩ := jsFindIndex_some hFind
            have pidEq : (ps.get ⟨i, hi⟩).id = pid := by simpa using hpi
            have hSameName : ∀ p ∈ ps, jsToLower p.name = jsToLower (strVal b.name) → p.id = pid := by
              intro p hp hn
              have := List.any_eq_false.mp hDup' p hp
              simp [hn] at this
              simpa using this
            have hst : (putRoute h pid b ps).2.2 =
                ps.set i ⟨pid, strVal b.name, b.description.getD "", numVal b.price,
                          strVal b.category,
                          b.inStock.getD (ps.getD i dummyProduct).inStock⟩ := by
              simp [putRoute, hA, hV, hFind, hDup']
            rw [hst]
            refine ⟨?_, ?_, ?_⟩
            · rw [lowerNames, List.map_set]
              apply nodup_set_of_ne hNames
              intro j hj hji heq
              have hj' : j < ps.length := by simpa [lowerNames] using hj
              rw [List.get_eq_getElem] at heq
              simp only [lowerNames, List.getElem_map] at heq
              have hqid : ps[j].id = pid :=
                hSameName ps[j] (List.getElem_mem hj') heq
              have pidEq' : ps[i].id = pid := pidEq
              have hij : (⟨j, by simpa [idsOf] using hj'⟩ : Fin (idsOf ps).length) =
                  ⟨i, by simpa [idsOf] using hi⟩ := by
                apply (List.Nodup.get_inj_iff hIds).mp
                simp only [idsOf, List.get_eq_getElem, List.getElem_map]
                rw [hqid, pidEq']
              exact hji (congrArg Fin.val hij)
            · have hset : idsOf (ps.set i ⟨pid, strVal b.name, b.description.getD "",
                    numVal b.price, strVal b.category,
                    b.inStock.getD (ps.getD i dummyProduct).inStock⟩) =
                  (idsOf ps).set i pid := by
                simp [idsOf, List.map_set]
              rw [hset, set_of_getElem?_eq]
              · exact hIds
              · have hlen : i < (idsOf ps).length := by simpa [idsOf] using hi
                have pidEq' : ps[i].id = pid := pidEq
                rw [List.getElem?_eq_getElem hlen]
                simp only [idsOf, List.getElem_map]
                rw [pidEq']
            · intro q hq
              rcases List.mem_or_eq_of_mem_set hq with hq | rfl
              · exact hVal q hq
              · have := hVal _ (List.get_mem ps i hi)
                exact pidEq ▸ this
    · have hA' : authPasses h = false := by simpa using hA
      have hst : (putRoute h pid b ps).2.2 = ps := by simp [putRoute, hA']
      rw [hst]; exact unchanged
  | del h pid =>
    show Inv (c, (deleteRoute h pid ps).2.2)
    by_cases hA : authPasses h = true
    · cases hFind : jsFindIndex (fun p => p.id == pid) ps with
      | none =>
        have hst : (deleteRoute h pid ps).2.2 = ps := by simp [deleteRoute, hA, hFind]
        rw [hst]; exact unchanged
      | some i =>
        have hst : (deleteRoute h pid ps).2.2 = ps.eraseIdx i := by
          simp [deleteRoute, hA, hFind]
        rw [hst]
        refine ⟨?_, ?_, ?_⟩
        · rw [lowerNames, map_eraseIdx_comm]
          exact List.Nodup.sublist (List.eraseIdx_sublist _ i) hNames
        · rw [idsOf, map_eraseIdx_comm]
          exact List.Nodup.sublist (List.eraseIdx_sublist _ i) hIds
        · intro q hq
          exact hVal q ((List.eraseIdx_sublist ps i).subset hq)
    · have hA' : authPasses h = false := by simpa using hA
      have hst : (deleteRoute h pid ps).2.2 = ps := by simp [deleteRoute, hA']
      rw [hst]; exact unchanged

theorem inv_foldl : ∀ (ops : List Op) (st : ApiState), Inv st → Inv (ops.foldl applyOp st) := by
  intro ops
  induction ops with
  | nil => intro st h; exact h
  | cons op rest ih => intro st h; exact ih _ (inv_applyOp h op)

theorem inv_seedState : Inv seedState := by
  refine ⟨by decide, by decide, ?_⟩
  intro p hp
  simp only [seedState, seedProducts, List.mem_cons, List.not_mem_nil, or_false] at hp
  rcases hp with rfl | rfl | rfl
  · exact Or.inl rfl
  · exact Or.inr (Or.inl rfl)
  · exact Or.inr (Or.inr (Or.inl rfl))

/-! ## Claim theorems -/

/-- C1: for every store state reachable from the three seed products by any
sequence of create, update and delete requests (successful or failed), no two
products have names that are equal case-insensitively: the list of
lower-cased names has no duplicate. -/
theorem c1_no_duplicate_ci_names (ops : List Op) :
    (lowerNames (applyOps ops).2).Nodup :=
  (inv_foldl ops seedState inv_seedState).1

/-- C2: an authenticated, validated create request answers 409 and leaves the
store untouched when some existing product's name matches case-insensitively;
otherwise it appends exactly one record carrying the freshly generated id,
the payload's fields, `description` defaulted to `""` and `inStock` defaulted
to `true`, and answers 201 with that record. -/
theorem c2_create_request (hdr : Option String) (b : Body) (newId : String)
    (ps : List Product) (hA : authPasses hdr = true) (hV : validateProduct b = none) :
    (ps.any (fun p => jsToLower p.name == jsToLower (strVal b.name)) = true →
      postRoute hdr b newId ps = (409, none, ps)) ∧
    (ps.any (fun p => jsToLower p.name == jsToLower (strVal b.name)) = false →
      postRoute hdr b newId ps =
        (201,
         some ⟨newId, strVal b.name, b.description.getD "", numVal b.price,
               strVal b.category, b.inStock.getD true⟩,
         ps ++ [⟨newId, strVal b.name, b.description.getD "", numVal b.price,
                 strVal b.category, b.inStock.getD true⟩])) := by
  constructor
  · intro hDup
    simp [postRoute, hA, hV, hDup]
  · intro hDup
    simp [postRoute, hA, hV, hDup]

/-- Witness for C2: creating "Tablet" (omitting `description` and `inStock`)
against the seed store succeeds with the defaults filled in. -/
theorem c2_create_request_witness :
    postRoute (some "Bearer secret-token")
      ⟨some (.str "Tablet"), some (.num 300), some (.str "electronics"), none, none⟩
      "fresh-id" seedProducts =
      (201, some ⟨"fresh-id", "Tablet", "", 300, "electronics", true⟩,
       seedProducts ++ [⟨"fresh-id", "Tablet", "", 300, "electronics", true⟩]) := by
  have h := (c2_create_request (some "Bearer secret-token")
      ⟨some (.str "Tablet"), some (.num 300), some (.str "electronics"), none, none⟩
      "fresh-id" seedProducts (by decide) (by decide)).2 (by decide)
  exact h

/-- C4 counterexample: the claim requires a 401 for every malformed
`Authorization` header (one not of the form `Bearer <token>`), but the filter
never inspects the scheme word: `NotBearer secret-token` is malformed yet
passes, and the request proceeds (a delete answers 200, not 401). -/
theorem c4_counterexample :
    authPasses (some "NotBearer secret-token") = true ∧
    some "NotBearer secret-token" ≠ some ("Bearer " ++ secretToken) ∧
    (deleteRoute (some "NotBearer secret-token") "1" seedProducts).1 = 200 := by
  refine ⟨by decide, by decide, by decide⟩

/-- C4 (amended): for POST, PUT and DELETE requests the auth filter fails
with 401 exactly when the `Authorization` header is absent or its second
space-separated field differs from the hardcoded secret — the scheme word is
never checked; in all other cases control passes onward (the response status
is never 401). -/
theorem c4_auth_gate (hdr : Option String) (b : Body) (newId pid pid' : String)
    (ps : List Product) :
    ((postRoute hdr b newId ps).1 = 401 ↔
      ¬ ∃ s, hdr = some s ∧ (jsSplitSpace s)[1]? = some secretToken) ∧
    ((putRoute hdr pid b ps).1 = 401 ↔
      ¬ ∃ s, hdr = some s ∧ (jsSplitSpace s)[1]? = some secretToken) ∧
    ((deleteRoute hdr pid' ps).1 = 401 ↔
      ¬ ∃ s, hdr = some s ∧ (jsSplitSpace s)[1]? = some secretToken) := by
  have key : authPasses hdr = true ↔
      ∃ s, hdr = some s ∧ (jsSplitSpace s)[1]? = some secretToken := by
    cases hdr with
    | none => simp [authPasses]
    | some s => simp [authPasses]
  by_cases hA : authPasses hdr = true
  · refine ⟨?_, ?_, ?_⟩
    · cases hV : validateProduct b with
      | some m =>
        simp [postRoute, hA, hV]
        exact key.mp hA
      | none =>
        by_cases hD : ps.any (fun p => jsToLower p.name == jsToLower (strVal b.name)) = true
        · simp [postRoute, hA, hV, hD]
          exact key.mp hA
        · simp [postRoute, hA, hV, hD]
          exact key.mp hA
    · cases hV : validateProduct b with
      | some m =>
        simp [putRoute, hA, hV]
        exact key.mp hA
      | none =>
        cases hF : jsFindIndex (fun p => p.id == pid) ps with
        | none =>
          simp [putRoute, hA, hV, hF]
          exact key.mp hA
        | some i =>
          by_cases hD : ps.any
              (fun p => jsToLower p.name == jsToLower (strVal b.name) && p.id != pid) = true
          · simp [putRoute, hA, hV, hF, hD]
            exact key.mp hA
          · simp [putRoute, hA, hV, hF, hD]
            exact key.mp hA
    · cases hF : jsFindIndex (fun p => p.id == pid') ps with
      | none =>
        simp [deleteRoute, hA, hF]
        exact key.mp hA
      | some i =>
        simp [deleteRoute, hA, hF]
        exact key.mp hA
  · have hA' : authPasses hdr = false := by simpa using hA
    have hnot : ∀ x, hdr = some x → ¬ (jsSplitSpace x)[1]? = some secretToken := by
      intro x hx hc
      exact hA (key.mpr ⟨x, hx, hc⟩)
    refine ⟨?_, ?_, ?_⟩ <;>
    · simp [postRoute, putRoute, deleteRoute, hA']
      exact hnot

/-- C8: a POST request that fails with 401 (auth) or 400 (validation) leaves
the product store exactly as it was. -/
theorem c8_failed_post_frame (hdr : Option String) (b : Body) (newId : String)
    (ps : List Product)
    (h : (postRoute hdr b newId ps).1 = 401 ∨ (postRoute hdr b newId ps).1 = 400) :
    (postRoute hdr b newId ps).2.2 = ps := by
  by_cases hA : authPasses hdr = true
  · cases hV : validateProduct b with
    | some m => simp [postRoute, hA, hV]
    | none =>
      by_cases hD : ps.any (fun p => jsToLower p.name == jsToLower (strVal b.name)) = true
      · simp [postRoute, hA, hV, hD]
      · exfalso
        rcases h with h | h <;> simp [postRoute, hA, hV, hD] at h
  · have hA' : authPasses hdr = false := by simpa using hA
    simp [postRoute, hA']

/-- Witness for C8: an unauthenticated POST (no header) and an authenticated
POST with `price: -5` both leave the seed store unchanged. -/
theorem c8_failed_post_frame_witness :
    (postRoute none
      ⟨some (.str "Tablet"), some (.num 300), some (.str "electronics"), none, none⟩
      "fresh-id" seedProducts).2.2 = seedProducts ∧
    (postRoute (some "Bearer secret-token")
      ⟨some (.str "Tablet"), some (.num (-5)), some (.str "electronics"), none, none⟩
      "fresh-id" seedProducts).2.2 = seedProducts :=
  ⟨c8_failed_post_frame none
      ⟨some (.str "Tablet"), some (.num 300), some (.str "electronics"), none, none⟩
      "fresh-id" seedProducts (Or.inl (by decide)),
   c8_failed_post_frame (some "Bearer secret-token")
      ⟨some (.str "Tablet"), some (.num (-5)), some (.str "electronics"), none, none⟩
      "fresh-id" seedProducts (Or.inr (by decide))⟩

/-- C3: an authenticated, validated update request answers 404 when no
product carries the path id; 409 when a product with a *different* id
already carries the same case-insensitive name; otherwise it replaces the
stored record at the found index wholesale with the payload, carrying the id
over, defaulting `description` to `""` and `inStock` to the prior record's
stored value, and answers 200 with the updated record. -/
theorem c3_update_request (hdr : Option String) (pathId : String) (b : Body)
    (ps : List Product) (hA : authPasses hdr = true) (hV : validateProduct b = none) :
    (jsFindIndex (fun p => p.id == pathId) ps = none →
      putRoute hdr pathId b ps = (404, none, ps)) ∧
    (∀ i, jsFindIndex (fun p => p.id == pathId) ps = some i →
      (ps.any (fun p => jsToLower p.name == jsToLower (strVal b.name) && p.id != pathId)
          = true →
        putRoute hdr pathId b ps = (409, none, ps)) ∧
      (ps.any (fun p => jsToLower p.name == jsToLower (strVal b.name) && p.id != pathId)
          = false →
        ∀ old, ps[i]? = some old →
          putRoute hdr pathId b ps =
            (200,
             some ⟨pathId, strVal b.name, b.description.getD "", numVal b.price,
                   strVal b.category, b.inStock.getD old.inStock⟩,
             ps.set i ⟨pathId, strVal b.name, b.description.getD "", numVal b.price,
                   strVal b.category, b.inStock.getD old.inStock⟩))) := by
  refine ⟨?_, ?_⟩
  · intro hF
    simp [putRoute, hA, hV, hF]
  · intro i hF
    refine ⟨?_, ?_⟩
    · intro hD
      simp [putRoute, hA, hV, hF, hD]
    · intro hD old hOld
      have hgetD : ps[i]?.getD dummyProduct = old := by
        rw [hOld]
        rfl
      simp [putRoute, hA, hV, hF, hD, hgetD]

/-- Witness for C3: updating seed product "3" (omitting `inStock`) keeps the
prior stored value `false` rather than create's default `true`. -/
theorem c3_update_request_witness :
    putRoute (some "Bearer secret-token") "3"
      ⟨some (.str "Espresso Machine"), some (.num 80), some (.str "kitchen"), none, none⟩
      seedProducts =
      (200, some ⟨"3", "Espresso Machine", "", 80, "kitchen", false⟩,
       seedProducts.set 2 ⟨"3", "Espresso Machine", "", 80, "kitchen", false⟩) := by
  have h := ((c3_update_request (some "Bearer secret-token") "3"
      ⟨some (.str "Espresso Machine"), some (.num 80), some (.str "kitchen"), none, none⟩
      seedProducts (by decide) (by decide)).2 2 (by decide)).2 (by decide)
      ⟨"3", "Coffee Maker", "Programmable coffee maker with timer", 50, "kitchen", false⟩
      (by decide)
  exact h

/-- C7: for an authenticated delete, an absent id answers 404 and leaves the
store alone; a present id (stores reachable here have pairwise-distinct ids)
answers 200 with the confirmation message and the removed record, and a
subsequent get-by-id of the same id answers 404. -/
theorem c7_delete_then_get (hdr : Option String) (pid : String) (ps : List Product)
    (hA : authPasses hdr = true) (hN : (idsOf ps).Nodup) :
    (jsFindIndex (fun p => p.id == pid) ps = none →
      deleteRoute hdr pid ps = (404, none, ps)) ∧
    (∀ i, jsFindIndex (fun p => p.id == pid) ps = some i →
      ∃ dp, ps[i]? = some dp ∧
        deleteRoute hdr pid ps =
          (200, some ("Product deleted successfully", dp), ps.eraseIdx i) ∧
        getById pid (ps.eraseIdx i) = (404, none)) := by
  refine ⟨?_, ?_⟩
  · intro hF
    simp [deleteRoute, hA, hF]
  · intro i hF
    obtain ⟨hi, hpi⟩ := jsFindIndex_some hF
    have pidEq : ps[i].id = pid := by simpa using hpi
    refine ⟨ps[i], List.getElem?_eq_getElem hi, ?_, ?_⟩
    · have hgetD : ps[i]?.getD dummyProduct = ps[i] := by
        rw [List.getElem?_eq_getElem hi]
        rfl
      simp [deleteRoute, hA, hF, hgetD]
    · have hnone : (ps.eraseIdx i).find? (fun p => p.id == pid) = none := by
        rw [List.find?_eq_none]
        intro q hq hbeq
        have hqid : q.id = pid := by simpa using hbeq
        have hmem : q.id ∈ (ps.map (fun p => p.id)).eraseIdx i := by
          rw [← map_eraseIdx_comm]
          exact List.mem_map_of_mem _ hq
        have hgetE : (idsOf ps)[i]? = some pid := by
          have hlen : i < (idsOf ps).length := by simpa [idsOf] using hi
          rw [List.getElem?_eq_getElem hlen]
          simp [idsOf, List.getElem_map, pidEq]
        exact not_mem_eraseIdx_of_nodup hN hgetE (hqid ▸ hmem)
      simp [getById, hnone]

/-- Witness for C7: deleting seed product "2" answers 200 with the removed
record, and getting "2" afterwards answers 404. -/
theorem c7_delete_then_get_witness :
    deleteRoute (some "Bearer secret-token") "2" seedProducts =
      (200, some ("Product deleted successfully",
        ⟨"2", "Smartphone", "Latest model with 128GB storage", 800, "electronics", true⟩),
       seedProducts.eraseIdx 1) ∧
    getById "2" (seedProducts.eraseIdx 1) = (404, none) := by
  have h := (c7_delete_then_get (some "Bearer secret-token") "2" seedProducts
      (by decide) (by decide)).2 1 (by decide)
  obtain ⟨dp, hdp, h1, h2⟩ := h
  have hdp' : (⟨"2", "Smartphone", "Latest model with 128GB storage", 800,
      "electronics", true⟩ : Product) = dp := Option.some.inj hdp
  subst hdp'
  exact ⟨h1, h2⟩

/-- C6: the validation filter checks name, then price, then category, in
that order, answering the first violated check's field-specific 400 message:
it behaves exactly as the specification's reading — name present, a string,
non-empty after trimming; price present, a number, ≥ 0; category present, a
string, non-empty after trimming (`specValidate` transcribes that reading). -/
theorem c6_validation_order_and_checks (b : Body) : validateProduct b = specValidate b := by
  obtain ⟨n, p, c, d, i⟩ := b
  cases n with
  | none => simp [validateProduct, specValidate, jsFalsy, jsIsString, strVal]
  | some nv =>
    cases nv with
    | str s =>
      by_cases hs : jsTrim s = ""
      · simp [validateProduct, specValidate, jsFalsy, jsIsString, strVal, hs]
      · have hs' : s ≠ "" := by
          intro h
          subst h
          exact hs rfl
        cases p with
        | none =>
          simp [validateProduct, specValidate, jsFalsy, jsIsString, jsIsNumber, strVal,
            hs, hs']
        | some pv =>
          cases pv with
          | num k =>
            by_cases hk : k < 0
            · simp [validateProduct, specValidate, jsFalsy, jsIsString, jsIsNumber,
                strVal, numVal, hs, hs', hk]
            · cases c with
              | none =>
                simp [validateProduct, specValidate, jsFalsy, jsIsString, jsIsNumber,
                  strVal, numVal, hs, hs', hk]
              | some cv =>
                cases cv with
                | str t =>
                  by_cases ht : jsTrim t = ""
                  · simp [validateProduct, specValidate, jsFalsy, jsIsString, jsIsNumber,
                      strVal, numVal, hs, hs', hk, ht]
                  · have ht' : t ≠ "" := by
                      intro h
                      subst h
                      exact ht rfl
                    simp [validateProduct, specValidate, jsFalsy, jsIsString, jsIsNumber,
                      strVal, numVal, hs, hs', hk, ht, ht']
                | num m =>
                  simp [validateProduct, specValidate, jsFalsy, jsIsString, jsIsNumber,
                    strVal, numVal, hs, hs', hk]
                | bool bb =>
                  simp [validateProduct, specValidate, jsFalsy, jsIsString, jsIsNumber,
                    strVal, numVal, hs, hs', hk]
                | null =>
                  simp [validateProduct, specValidate, jsFalsy, jsIsString, jsIsNumber,
                    strVal, numVal, hs, hs', hk]
          | str s2 =>
            simp [validateProduct, specValidate, jsFalsy, jsIsString, jsIsNumber, strVal,
              hs, hs']
          | bool bb =>
            simp [validateProduct, specValidate, jsFalsy, jsIsString, jsIsNumber, strVal,
              hs, hs']
          | null =>
            simp [validateProduct, specValidate, jsFalsy, jsIsString, jsIsNumber, strVal,
              hs, hs']
    | num k => simp [validateProduct, specValidate, jsFalsy, jsIsString, strVal]
    | bool bb =>
      cases bb <;> simp [validateProduct, specValidate, jsFalsy, jsIsString, strVal]
    | null => simp [validateProduct, specValidate, jsFalsy, jsIsString, strVal]

/-- C9: a list request whose `page` or `limit` query parameter fails numeric
parsing (`parseInt` yields `NaN`) is served exactly as if that parameter were
absent, with the default substituted (page 1, limit 10), not rejected. -/
theorem c9_nonnumeric_params_default (sq cq iq pq lq : Option String) (ps : List Product)
    (s t : String) (hs : parseIntJS s = none) (ht : parseIntJS t = none) :
    listRoute sq cq iq (some s) lq ps = listRoute sq cq iq none lq ps ∧
    (listRoute sq cq iq (some s) lq ps).page = 1 ∧
    listRoute sq cq iq pq (some t) ps = listRoute sq cq iq pq none ps ∧
    (listRoute sq cq iq pq (some t) ps).limit = 10 := by
  have hp : pageOf (some s) = 1 := by simp [pageOf, jsOrDefault, hs]
  have hp0 : pageOf none = 1 := rfl
  have hl : limitOf (some t) = 10 := by simp [limitOf, jsOrDefault, ht]
  have hl0 : limitOf none = 10 := rfl
  refine ⟨?_, ?_, ?_, ?_⟩
  · simp [listRoute, hp, hp0]
  · simp [listRoute, hp]
  · simp [listRoute, hl, hl0]
  · simp [listRoute, hl]

/-- Witness for C9: `page=abc` and `limit=xyz` against the seed store behave
as the defaults. -/
theorem c9_nonnumeric_params_default_witness :
    listRoute none none none (some "abc") none seedProducts =
      listRoute none none none none none seedProducts ∧
    (listRoute none none none (some "abc") none seedProducts).page = 1 ∧
    listRoute none none none none (some "xyz") seedProducts =
      listRoute none none none none none seedProducts ∧
    (listRoute none none none none (some "xyz") seedProducts).limit = 10 :=
  c9_nonnumeric_params_default none none none none none seedProducts "abc" "xyz"
    (by decide) (by decide)

/-- C10: a list request whose `page` or `limit` query parameter parses to the
number 0 gets the default substituted (`0` is falsy, so `parseInt(q) || d`
yields `d`): `page=0` behaves identically to `page=1` and `limit=0` behaves
identically to `limit=10`. -/
theorem c10_zero_params_default (sq cq iq pq lq : Option String) (ps : List Product)
    (s t : String) (hs : parseIntJS s = some 0) (ht : parseIntJS t = some 0) :
    listRoute sq cq iq (some s) lq ps = listRoute sq cq iq (some "1") lq ps ∧
    (listRoute sq cq iq (some s) lq ps).page = 1 ∧
    listRoute sq cq iq pq (some t) ps = listRoute sq cq iq pq (some "10") ps ∧
    (listRoute sq cq iq pq (some t) ps).limit = 10 := by
  have hp : pageOf (some s) = 1 := by simp [pageOf, jsOrDefault, hs]
  have hp1 : pageOf (some "1") = 1 := by decide
  have hl : limitOf (some t) = 10 := by simp [limitOf, jsOrDefault, ht]
  have hl1 : limitOf (some "10") = 10 := by decide
  refine ⟨?_, ?_, ?_, ?_⟩
  · simp [listRoute, hp, hp1]
  · simp [listRoute, hp]
  · simp [listRoute, hl, hl1]
  · simp [listRoute, hl]

/-- Witness for C10: `page=0` equals `page=1` and `limit=0` equals
`limit=10` against the seed store. -/
theorem c10_zero_params_default_witness :
    listRoute none none none (some "0") none seedProducts =
      listRoute none none none (some "1") none seedProducts ∧
    (listRoute none none none (some "0") none seedProducts).page = 1 ∧
    listRoute none none none none (some "0") seedProducts =
      listRoute none none none none (some "10") seedProducts ∧
    (listRoute none none none none (some "0") seedProducts).limit = 10 :=
  c10_zero_params_default none none none none none seedProducts "0" "0"
    (by decide) (by decide)

/-- C5 counterexample: for the request `page=-1&limit=1` against the seed
store the parsed page is `-1`, so the claimed slice `[(p-1)*l, p*l) = [-2,-1)`
contains no valid index, yet JS `slice(-2, -1)` counts from the end of the
array and the response contains the second seed product: the claimed
characterization of `products` fails for negative parsed parameters. -/
theorem c5_counterexample :
    (listRoute none none none (some "-1") (some "1") seedProducts).products ≠
      specSlice (filterAll none none none seedProducts)
        ((pageOf (some "-1") - 1) * limitOf (some "1"))
        (pageOf (some "-1") * limitOf (some "1")) := by
  decide

/-- C5 (amended): whenever the parsed page `p` and limit `l` are at least 1
(which holds for every well-formed positive request; negative parsed values
instead follow JS slice-from-the-end semantics), the list response's
`products` is exactly the filtered working set sliced to the half-open index
range `[(p-1)*l, p*l)`, `total` is the filtered length before pagination,
`page` and `limit` echo the parsed values, the `next` link `(p+1, l)` is
present exactly when `p*l < total`, and the `previous` link `(p-1, l)` is
present exactly when `(p-1)*l > 0`. -/
theorem c5_list_pagination (sq cq iq pq lq : Option String) (ps : List Product)
    (hp : 1 ≤ pageOf pq) (hl : 1 ≤ limitOf lq) :
    (listRoute sq cq iq pq lq ps).products =
      specSlice (filterAll sq cq iq ps)
        ((pageOf pq - 1) * limitOf lq) (pageOf pq * limitOf lq) ∧
    (listRoute sq cq iq pq lq ps).total = (filterAll sq cq iq ps).length ∧
    (listRoute sq cq iq pq lq ps).page = pageOf pq ∧
    (listRoute sq cq iq pq lq ps).limit = limitOf lq ∧
    ((listRoute sq cq iq pq lq ps).next = some (pageOf pq + 1, limitOf lq) ↔
      pageOf pq * limitOf lq < ((filterAll sq cq iq ps).length : Int)) ∧
    ((listRoute sq cq iq pq lq ps).previous = some (pageOf pq - 1, limitOf lq) ↔
      0 < (pageOf pq - 1) * limitOf lq) := by
  have ha : 0 ≤ (pageOf pq - 1) * limitOf lq :=
    mul_nonneg (by omega) (by omega)
  have hb : 0 ≤ pageOf pq * limitOf lq :=
    mul_nonneg (by omega) (by omega)
  refine ⟨?_, rfl, rfl, rfl, ?_, ?_⟩
  · simp only [listRoute]
    exact jsSlice_eq_specSlice _ _ _ ha hb
  · by_cases hc : pageOf pq * limitOf lq < ((filterAll sq cq iq ps).length : Int)
    · simp [listRoute, hc]
    · simp [listRoute, hc]
  · by_cases hc : 0 < (pageOf pq - 1) * limitOf lq
    · simp [listRoute, hc]
    · simp [listRoute, hc]

/-- Witness for C5: `limit=1&page=2` against the seed store returns exactly
the second seed product with both pagination links present. -/
theorem c5_list_pagination_witness :
    (listRoute none none none (some "2") (some "1") seedProducts).products =
      [⟨"2", "Smartphone", "Latest model with 128GB storage", 800, "electronics", true⟩] ∧
    (listRoute none none none (some "2") (some "1") seedProducts).next = some (3, 1) ∧
    (listRoute none none none (some "2") (some "1") seedProducts).previous = some (1, 1) := by
  have h := c5_list_pagination none none none (some "2") (some "1") seedProducts
    (by decide) (by decide)
  refine ⟨?_, ?_, ?_⟩
  · rw [h.1]
    decide
  · rw [(h.2.2.2.2.1).mpr (by decide)]
    decide
  · rw [(h.2.2.2.2.2).mpr (by decide)]
    decide

end ProductApi
